import Mathlib

/-!
Shallow embedding of the podite bytes codec engine
(`src/pod/bytes.py` and `src/pod/types/array.py`).

Buffers are modelled as `List Nat` of byte values (each `< 256`); a read
buffer is a pair of the full byte list and a cursor position, and a write
buffer is the list of bytes emitted so far (append-only, so each step is
modelled by the chunk of bytes it appends).  The mutable tag-type slot
`AutoTagType.TAG_TYPE[0]` of `src/pod/bytes.py` is threaded explicitly
through every call as a `Slot` value; since the only writers of the slot
are `pack_partial`/`unpack_partial`, which install the atomic tag types
`U8`/`U64`, the slot is represented by the byte width of the installed
tag type.  Python exceptions are modelled with `Except`.

The atomic integer types (`src/pod/types/atomic.py`) and the error class
`PodPathError` (`src/pod/errors.py`) are not part of the provided source
tree; they are modelled from the spec where indicated.

A decisive behavioural fact of this source tree: `SelfBytesPodConverter`
invokes the self-converter hooks as
`getattr(type_, "_to_bytes_partial")(buffer, obj, **kwargs)` and
`getattr(type_, "_from_bytes_partial")(buffer, **kwargs)`
(`src/pod/bytes.py` lines 91-95) with the `format` keyword always present
in `kwargs` (lines 177/184 and 218/223), while every container class
generated in `src/pod/types/array.py` declares its hooks
`(cls, obj, buffer)` / `(cls, buffer)` without `**kwargs`.  Python
therefore rejects the call with an unexpected-keyword `TypeError` before
the hook body runs: no container value can be packed or unpacked in this
tree.  Only the atomic leaf converters, `AutoTagType` and `@pod`
dataclasses (whose injected hooks are declared `(cls, buffer, obj,
**kwargs)` / `(cls, buffer, **kwargs)`) actually pack and unpack.  The
`_is_static` / `_calc_max_size` hooks are called with no extra arguments
(`src/pod/bytes.py` lines 85-89), so they do work for containers.
-/

namespace Podite

/-- Python exceptions raised by the codec engine.  `podPathError` models
`PodPathError(message, path, field_type_name)` from `pod/errors.py`
(modelled from the spec: path errors carry an accumulating chain of field
names and enclosing type names plus the offending field type). -/
inductive Err where
  | noConverter (msg : String)
  | valueError (msg : String)
  | runtimeError (msg : String)
  | typeError (msg : String)
  | attributeError (nm : String)
  | structError (msg : String)
  | unicodeEncodeError
  | unicodeDecodeError
  | podPathError (msg : String) (path : List String) (tyName : String)
  deriving DecidableEq, Repr

/-- The format argument of `pack`/`unpack`:  `borsch` is the canonical
format (`FORMAT_BORSCH`), `zeroCopy` is `FORMAT_ZERO_COPY`, `passThru`
is `FORMAT_PASS` and `auto` is `FORMAT_AUTO`. -/
inductive Format where
  | borsch
  | zeroCopy
  | passThru
  | auto
  deriving DecidableEq, Repr

/-- The tag-type slot `AutoTagType.TAG_TYPE[0]`: `none` is Python `None`;
`some w` is the atomic unsigned integer type of width `w` bytes installed
by `AutoTagTypeValueManager` (`w = 1` for `U8`, `w = 8` for `U64`). -/
abbrev Slot := Option Nat

mutual
/-- The registered Types of the engine.  `uint w` is the atomic unsigned
little-endian integer of `w` bytes (modelled from the spec, see below);
`autoTag` is `AutoTagType` from `src/pod/bytes.py`; the container
constructors are the generated classes of `src/pod/types/array.py`
(`_fixed_len_array`, `_fixed_len_bytes`, `_fixed_len_str`,
`_var_len_array`, `_var_len_bytes`, `_var_len_str`), and `record` is a
`@pod` dataclass with its ordered field list. -/
inductive PodType where
  | uint (w : Nat)
  | autoTag
  | fixedArray (elem : PodType) (length : Nat)
  | fixedBytes (length : Nat)
  | fixedStr (length : Nat) (autopad : Bool)
  | varArray (elem : PodType) (lengthType : PodType) (maxLength : Nat)
  | varBytes (lengthType : PodType) (maxLength : Nat)
  | varStr (lengthType : PodType) (maxLength : Nat)
  | record (nm : String) (fields : FieldList)

/-- The ordered field descriptors of a dataclass: `fields(cls)` with, for
each field, its name and its declared type. -/
inductive FieldList where
  | nil
  | cons (nm : String) (ty : PodType) (rest : FieldList)
end

mutual
/-- Python values handled by the codec: ints, `bytes` objects, `str`
objects (as their list of Unicode code points), lists, and dataclass
instances (as their field values in declared order). -/
inductive PodValue where
  | uint (n : Nat)
  | bytes (bs : List Nat)
  | str (cps : List Nat)
  | arr (xs : ValList)
  | recd (vs : ValList)

/-- A Python list of values. -/
inductive ValList where
  | nil
  | cons (v : PodValue) (rest : ValList)
end

/-- `len(obj)` for a Python list. -/
def lengthV : ValList → Nat
  | .nil => 0
  | .cons _ rest => lengthV rest + 1

/-- Number of fields in a field list. -/
def sizeF : FieldList → Nat
  | .nil => 0
  | .cons _ _ rest => sizeF rest + 1

mutual
/-- Nesting depth of a type, used as the termination measure of the
recursive-descent pack/unpack functions.  `autoTag` delegates to the
atomic integer type held in the slot, so it sits strictly above the
atomic leaves. -/
def depth : PodType → Nat
  | .uint _ => 0
  | .autoTag => 1
  | .fixedArray e _ => depth e + 1
  | .fixedBytes _ => 0
  | .fixedStr _ _ => 0
  | .varArray e lt _ => max (depth e) (depth lt) + 1
  | .varBytes lt _ => depth lt + 1
  | .varStr lt _ => depth lt + 1
  | .record _ fs => depthF fs + 1

/-- Depth of a field list: strictly above the depth of each field type. -/
def depthF : FieldList → Nat
  | .nil => 0
  | .cons _ t rest => max (depth t + 1) (depthF rest)
end

/-- Little-endian encoding of `n` into exactly `w` bytes (modelled from
the spec: atomic integer encodings have fixed byte widths and a fixed
endianness, supplied by the leaf converter library `pod/types/atomic.py`
which is not part of the provided source tree). -/
def natToLE : Nat → Nat → List Nat
  | 0, _ => []
  | w + 1, n => n % 256 :: natToLE w (n / 256)

/-- Little-endian decoding of a byte list. -/
def leToNat : List Nat → Nat
  | [] => 0
  | b :: rest => b + 256 * leToNat rest

theorem natToLE_length (w n : Nat) : (natToLE w n).length = w := by
  induction w generalizing n with
  | zero => rfl
  | succ w ih => simp [natToLE, ih]

theorem leToNat_natToLE (w n : Nat) (h : n < 256 ^ w) :
    leToNat (natToLE w n) = n := by
  induction w generalizing n with
  | zero => simp [natToLE, leToNat]; omega
  | succ w ih =>
      have hlt : n / 256 < 256 ^ w := by
        rw [Nat.div_lt_iff_lt_mul (by norm_num)]
        calc n < 256 ^ (w + 1) := h
        _ = 256 ^ w * 256 := by ring
      simp [natToLE, leToNat, ih _ hlt]
      omega

/-- A Unicode code point that Python can encode to UTF-8: in range and
not a surrogate (`str.encode` raises `UnicodeEncodeError` on
surrogates).  The UTF-8 codec models the standard-library codec used by
`_fixed_len_str` / `_var_len_str` via `.encode(encoding)` /
`.decode(encoding)` with the default `encoding="UTF-8"`. -/
def validCp (c : Nat) : Bool :=
  c < 0x110000 && !(0xD800 ≤ c && c < 0xE000)

/-- Whether every code point of a Python string is UTF-8-encodable. -/
def validStr (s : List Nat) : Bool := s.all validCp

/-- Standard UTF-8 encoding of a single code point (meaningful for
`validCp` code points). -/
def utf8EncodeChar (c : Nat) : List Nat :=
  if c < 0x80 then [c]
  else if c < 0x800 then [0xC0 + c / 64, 0x80 + c % 64]
  else if c < 0x10000 then
    [0xE0 + c / 4096, 0x80 + c / 64 % 64, 0x80 + c % 64]
  else
    [0xF0 + c / 262144, 0x80 + c / 4096 % 64, 0x80 + c / 64 % 64,
      0x80 + c % 64]

/-- UTF-8 encoding of a whole string. -/
def utf8Enc : List Nat → List Nat
  | [] => []
  | c :: rest => utf8EncodeChar c ++ utf8Enc rest

/-- `bytes.ljust(n, b"\x00")`: pad on the right with zero bytes up to
length `n`; a longer input is returned unchanged. -/
def ljust (bs : List Nat) (n : Nat) : List Nat :=
  bs ++ List.replicate (n - bs.length) 0

/-- The `__name__` attribute of each registered type (the generated
classes of `array.py` assign an f-string name; atomic names are modelled
from the spec). -/
def typeName : PodType → String
  | .uint w => "U" ++ toString (8 * w)
  | .autoTag => "AutoTagType"
  | .fixedArray e n => "FixedLenArray[" ++ typeName e ++ ", " ++ toString n ++ "]"
  | .fixedBytes n => "FixedLenBytes[" ++ toString n ++ "]"
  | .fixedStr n _ => "FixedLenStr[" ++ toString n ++ ", encoding=UTF-8]"
  | .varArray e lt ml =>
      "Vec[" ++ typeName e ++ ", length_type=" ++ typeName lt ++
        ", max_length=" ++ toString ml ++ "]"
  | .varBytes lt ml =>
      "Bytes[length_type=" ++ typeName lt ++ ", max_length=" ++ toString ml ++ "]"
  | .varStr lt ml =>
      "Str[max_length=" ++ toString ml ++ ", length_type=" ++ typeName lt ++
        ", encoding=UTF-8]"
  | .record nm _ => nm

/-- The attribute name the catalog looks up for the static-check hook:
`IS_STATIC = "_is_static"` in `src/pod/bytes.py` line 27. -/
def IS_STATIC : String := "_is_static"

/-- The attribute name under which each generated container class
actually defines its static-check hook.  Every generator of
`src/pod/types/array.py` names it `_is_static`, except `_var_len_array`,
whose class defines `is_static` (no leading underscore, line 159). -/
def staticHookName : PodType → String
  | .varArray _ _ _ => "is_static"
  | _ => "_is_static"

mutual
/-- `BYTES_CATALOG.is_static(type_)`: resolves the type's converter and
asks it whether the type is static.  For self-describing types this is
`getattr(type_, "_is_static")()` (`SelfBytesPodConverter.is_static`),
which raises `AttributeError` when the class defines no `_is_static`
attribute — the case for `_var_len_array` classes, whose hook is named
`is_static`.  For dataclasses the injected `_is_static` is
`dataclass_is_static`, the logical AND over the fields in declared
order.  Atomic integers are static (modelled from the spec). -/
def catalogIsStatic : PodType → Except Err Bool
  | .uint _ => .ok true
  | .autoTag => .ok false
  | .fixedArray e _ => catalogIsStatic e
  | .fixedBytes _ => .ok true
  | .fixedStr _ _ => .ok true
  | .varArray _ _ _ => .error (.attributeError IS_STATIC)
  | .varBytes _ _ => .ok false
  | .varStr _ _ => .ok false
  | .record _ fs => isStaticFields fs

/-- `dataclass_is_static`: fails static as soon as one field is not
static, propagating any error raised while querying a field. -/
def isStaticFields : FieldList → Except Err Bool
  | .nil => .ok true
  | .cons _ t rest => do
      let b ← catalogIsStatic t
      if b then isStaticFields rest else pure false
end

mutual
/-- `BYTES_CATALOG.calc_max_size(type_)` under a given tag-type slot.
Atomic integers report their byte width (modelled from the spec);
`AutoTagType._calc_max_size` delegates to the type currently held in the
slot and fails through the catalog when the slot holds `None`; the
generated containers and `dataclass_calc_max_size` follow
`src/pod/types/array.py` and `src/pod/bytes.py`. -/
def calcMaxSize : PodType → Slot → Except Err Nat
  | .uint w, _ => .ok w
  | .autoTag, slot =>
      match slot with
      | none => .error (.noConverter "No converter was able to calculate maximum size of type None")
      | some w => .ok w
  | .fixedArray e n, s => (calcMaxSize e s).map (· * n)
  | .fixedBytes n, _ => .ok n
  | .fixedStr n _, _ => .ok n
  | .varArray e lt ml, s => do
      let lenSize ← calcMaxSize lt s
      let elemSize ← calcMaxSize e s
      pure (lenSize + elemSize * ml)
  | .varBytes lt ml, s => (calcMaxSize lt s).map (· + ml)
  | .varStr lt ml, s => (calcMaxSize lt s).map (· + ml)
  | .record _ fs, s => calcMaxSizeFields fs s

/-- `dataclass_calc_max_size`: the sum of the fields' max sizes in
declared order. -/
def calcMaxSizeFields : FieldList → Slot → Except Err Nat
  | .nil, _ => .ok 0
  | .cons _ t rest, s => do
      let a ← calcMaxSize t s
      let b ← calcMaxSizeFields rest s
      pure (a + b)
end

/-- The default `max_length` of the variable-length container
generators when the caller omits it:
`max_length = 2 ** BYTES_CATALOG.calc_max_size(length_type)`
(`src/pod/types/array.py` lines 153-154, 221-222, 270-271), evaluated at
class-generation time, when the tag slot holds `None`. -/
def defaultMaxLength (lengthType : PodType) : Except Err Nat :=
  (calcMaxSize lengthType none).map (fun s => 2 ^ s)

/-- The atomic type `U32`: unsigned 32-bit integer, 4 bytes (modelled
from the spec; `pod/types/atomic.py` is not in the provided source). -/
def U32 : PodType := .uint 4

/-- Whether a Python value of the given length can be packed by the
length-prefix type: it must be an atomic unsigned integer type and the
length must fit its range.  (This is `legalValue lt (.uint n)`
specialised; any other length type fails to pack an int.) -/
def lenFits (lt : PodType) (n : Nat) : Bool :=
  match lt with
  | .uint w => n < 256 ^ w
  | _ => false

mutual
/-- The declared bounds of each Type, as the spec states them: fixed
arrays hold exactly `length` in-bounds elements, fixed byte blobs hold
at most `length` bytes, fixed strings encode to at most (without
autopad: exactly) `length` bytes, variable containers hold at most
`max_length` elements/bytes/characters with a length that fits the
length prefix, and records bind one in-bounds value per field.  Values
of the wrong Python type are out of bounds, and the tag placeholder
`AutoTagType` has no declared bounds. -/
def legalValue : PodType → PodValue → Bool
  | .uint w, .uint n => n < 256 ^ w
  | .fixedArray e n, .arr xs => lengthV xs = n && legalList e xs
  | .fixedBytes n, .bytes bs => bs.length ≤ n
  | .fixedStr n ap, .str s =>
      validStr s && (utf8Enc s).length ≤ n &&
        (ap || (utf8Enc s).length = n)
  | .varArray e lt ml, .arr xs =>
      lengthV xs ≤ ml && lenFits lt (lengthV xs) && legalList e xs
  | .varBytes lt ml, .bytes bs => bs.length ≤ ml && lenFits lt bs.length
  | .varStr lt ml, .str s =>
      s.length ≤ ml && lenFits lt s.length && validStr s
  | .record _ fs, .recd vs => legalFields fs vs
  | _, _ => false

/-- Every element of a list is in bounds for the element type. -/
def legalList (e : PodType) : ValList → Bool
  | .nil => true
  | .cons x rest => legalValue e x && legalList e rest

/-- Componentwise bounds for a record value against its field list. -/
def legalFields : FieldList → ValList → Bool
  | .nil, .nil => true
  | .cons _ t frest, .cons v vrest => legalValue t v && legalFields frest vrest
  | _, _ => false
end

mutual
/-- The Types whose pack/unpack hooks are actually callable in this
source tree: atomic unsigned integers and `@pod` dataclass records built
only from such Types.  Every generated container class declares its
hooks without `**kwargs` and is rejected with `TypeError` at the hook
invocation, and the `AutoTagType` placeholder is the negotiator's
internal tag type, not a registered data Type. -/
def containerFree : PodType → Bool
  | .uint _ => true
  | .autoTag => false
  | .fixedArray _ _ => false
  | .fixedBytes _ => false
  | .fixedStr _ _ => false
  | .varArray _ _ _ => false
  | .varBytes _ _ => false
  | .varStr _ _ => false
  | .record _ fs => containerFreeF fs

/-- Every field type of the list is container-free. -/
def containerFreeF : FieldList → Bool
  | .nil => true
  | .cons _ t rest => containerFree t && containerFreeF rest
end

/-- Result of one packing step: the Python outcome (`()` or a raised
exception), the chunk of bytes the step appended to the buffer (kept
also on failure: Python leaves partial writes in the buffer), and the
value of the tag slot at the moment the step returns or raises. -/
structure PackRes where
  res : Except Err Unit
  out : List Nat
  slot : Slot

/-- Result of one unpacking step: the decoded value or the raised
exception, the cursor position when the step returns or raises, and the
tag slot at that moment. -/
structure UnpackRes where
  res : Except Err PodValue
  pos : Nat
  slot : Slot

/-- Result of an element/field loop during unpacking. -/
structure UnpackListRes where
  res : Except Err ValList
  pos : Nat
  slot : Slot

/-- Error wrapping of `dataclass_to_bytes_partial`: a `PodPathError`
from a nested call gets the failing field name and the enclosing class
name appended to its path; any other exception is converted into a
fresh `PodPathError` whose path starts with that pair. -/
def wrapPackErr (e : Err) (fieldName clsName fieldTyName : String) : Err :=
  match e with
  | .podPathError msg path tyn =>
      .podPathError msg (path ++ [fieldName, clsName]) tyn
  | _ => .podPathError "Failed to serialize dataclass" [fieldName, clsName]
      fieldTyName

/-- Error wrapping of `dataclass_from_bytes_partial` (same shape with
the deserialize message). -/
def wrapUnpackErr (e : Err) (fieldName clsName fieldTyName : String) : Err :=
  match e with
  | .podPathError msg path tyn =>
      .podPathError msg (path ++ [fieldName, clsName]) tyn
  | _ => .podPathError "Failed to deserialize dataclass" [fieldName, clsName]
      fieldTyName

/-- The `ValueError` message for an invalid format argument. -/
def formatErrMsg : String :=
  "Format argument must be FORMAT_AUTO, FORMAT_BORSCH, or FORMAT_ZERO_COPY"

/-- The `TypeError` Python raises when `SelfBytesPodConverter` invokes a
generated container hook.  The converter calls the hooks as
`getattr(type_, "_to_bytes_partial")(buffer, obj, **kwargs)` and
`getattr(type_, "_from_bytes_partial")(buffer, **kwargs)`
(`src/pod/bytes.py` lines 91-95), and `pack_partial`/`unpack_partial`
always put `format` into `kwargs` (lines 177/184 and 218/223); but every
container class generated in `src/pod/types/array.py` declares its hooks
as `(cls, obj, buffer)` / `(cls, buffer)` with no `**kwargs`, so the
call is rejected with an unexpected-keyword `TypeError` before the hook
body runs. -/
def hookTypeError : Err :=
  .typeError "got an unexpected keyword argument format"

/-- Modelled from the spec: the pack step of the atomic unsigned
integer converter (`pod/types/atomic.py`, not in the provided source):
writes the fixed-width little-endian encoding, raising when the int
does not fit the declared width. -/
def packUintStep (w : Nat) (v : PodValue) (slot : Slot) : PackRes :=
  match v with
  | .uint n =>
      if n < 256 ^ w then ⟨.ok (), natToLE w n, slot⟩
      else ⟨.error (.structError "argument out of range"), [], slot⟩
  | _ => ⟨.error (.typeError "required argument is not an integer"), [], slot⟩

/-- Modelled from the spec: the unpack step of the atomic unsigned
integer converter reads exactly `w` bytes and decodes little-endian,
raising when the buffer holds fewer than `w` remaining bytes. -/
def unpackUintStep (w : Nat) (data : List Nat) (pos : Nat) (slot : Slot) :
    UnpackRes :=
  let chunk := (data.drop pos).take w
  if chunk.length = w then ⟨.ok (.uint (leToNat chunk)), pos + w, slot⟩
  else ⟨.error (.structError "buffer too small"), pos + chunk.length, slot⟩

/-- `BYTES_CATALOG.pack_partial` specialised to an atomic integer type:
the format negotiation of `BytesPodConverterCatalog.pack_partial`
applied to the (non-recursive) atomic pack step.  `AutoTagType` uses
this when delegating to the type held in the slot. -/
def packUintCatalog (w : Nat) (fmt : Format) (v : PodValue) (slot : Slot) :
    PackRes :=
  match fmt with
  | .passThru => packUintStep w v slot
  | .borsch =>
      let r := packUintStep w v (some 1)
      ⟨r.res, r.out, slot⟩
  | .zeroCopy =>
      let r := packUintStep w v (some 8)
      ⟨r.res, r.out, slot⟩
  | .auto => ⟨.error (.valueError formatErrMsg), [], slot⟩

/-- `BYTES_CATALOG.unpack_partial` specialised to an atomic integer
type, including the auto-detection probe (whose `calc_max_size` under
the 8-byte tag type is the width `w`). -/
def unpackUintCatalog (w : Nat) (fmt : Format) (data : List Nat)
    (pos : Nat) (slot : Slot) : UnpackRes :=
  match fmt with
  | .passThru => unpackUintStep w data pos slot
  | .borsch =>
      let r := unpackUintStep w data pos (some 1)
      ⟨r.res, r.pos, slot⟩
  | .zeroCopy =>
      let r := unpackUintStep w data pos (some 8)
      ⟨r.res, r.pos, slot⟩
  | .auto =>
      if w = data.length then
        let r := unpackUintStep w data pos (some 8)
        ⟨r.res, r.pos, slot⟩
      else
        let r := unpackUintStep w data pos (some 1)
        ⟨r.res, r.pos, slot⟩

mutual
/-- `BytesPodConverterCatalog.pack_partial`: resolves the converter,
installs the tag type for the requested format (`U8` for the canonical
borsch format, `U64` for zero-copy, nothing for pass-through) via
`AutoTagTypeValueManager`, runs the converter's pack step, restores the
previous slot value on every exit path, and raises `ValueError` for any
other format argument (including `auto`, which is unpack-only). -/
def packPartialC (T : PodType) (fmt : Format) (v : PodValue) (slot : Slot) :
    PackRes :=
  match fmt with
  | .passThru => packHook T .passThru v slot
  | .borsch =>
      let r := packHook T .borsch v (some 1)
      ⟨r.res, r.out, slot⟩
  | .zeroCopy =>
      let r := packHook T .zeroCopy v (some 8)
      ⟨r.res, r.out, slot⟩
  | .auto => ⟨.error (.valueError formatErrMsg), [], slot⟩
termination_by (depth T, 2, 0)
decreasing_by all_goals (simp [Prod.lex_def, depth, depthF, sizeF, lengthV]; try omega)

/-- The resolved converter's `pack_partial` step for each registered
type.  `SelfBytesPodConverter.pack_partial` invokes the type's
`_to_bytes_partial` hook as `(buffer, obj, **kwargs)` with the `format`
keyword always present.  The hooks of a dataclass
(`dataclass_to_bytes_partial`) and of `AutoTagType` are declared
`(cls, buffer, obj, **kwargs)` and their bodies run (dataclass fields
forward the negotiated format through `**kwargs`); but every generated
container class of `src/pod/types/array.py` declares its hook
`(cls, obj, buffer)` without `**kwargs`, so for all six container kinds
the invocation itself raises `TypeError` — nothing is written and the
hook body never executes.  Atomic integers use the leaf converter
(modelled from the spec). -/
def packHook (T : PodType) (fmt : Format) (v : PodValue) (slot : Slot) :
    PackRes :=
  match T with
  | .uint w => packUintStep w v slot
  | .autoTag =>
      match slot with
      | none => ⟨.error (.noConverter "No converter was able to pack raw data"),
          [], none⟩
      | some w => packUintCatalog w fmt v (some w)
  | .fixedArray _ _ => ⟨.error hookTypeError, [], slot⟩
  | .fixedBytes _ => ⟨.error hookTypeError, [], slot⟩
  | .fixedStr _ _ => ⟨.error hookTypeError, [], slot⟩
  | .varArray _ _ _ => ⟨.error hookTypeError, [], slot⟩
  | .varBytes _ _ => ⟨.error hookTypeError, [], slot⟩
  | .varStr _ _ => ⟨.error hookTypeError, [], slot⟩
  | .record nm fs =>
      match v with
      | .recd vs => packFields fs nm fmt vs slot
      | _ =>
          match fs with
          | .nil => ⟨.ok (), [], slot⟩
          | .cons fn ft _ =>
              ⟨.error (.podPathError "Failed to serialize dataclass" [fn, nm]
                (typeName ft)), [], slot⟩
termination_by (depth T, 1, 0)
decreasing_by all_goals (simp [Prod.lex_def, depth, depthF, sizeF, lengthV]; try omega)

/-- `dataclass_to_bytes_partial`: packs each field value in declared
order through the catalog, wrapping any failure with the field name and
the class name. -/
def packFields (fs : FieldList) (clsName : String) (fmt : Format)
    (vs : ValList) (slot : Slot) : PackRes :=
  match fs with
  | .nil => ⟨.ok (), [], slot⟩
  | .cons fn ft rest =>
      match vs with
      | .nil => ⟨.error (.podPathError "Failed to serialize dataclass"
          [fn, clsName] (typeName ft)), [], slot⟩
      | .cons x xs =>
          let r := packPartialC ft fmt x slot
          match r.res with
          | .error e =>
              ⟨.error (wrapPackErr e fn clsName (typeName ft)), r.out, r.slot⟩
          | .ok _ =>
              let r2 := packFields rest clsName fmt xs r.slot
              ⟨r2.res, r.out ++ r2.out, r2.slot⟩
termination_by (depthF fs, 1, sizeF fs)
decreasing_by all_goals (simp [Prod.lex_def, depth, depthF, sizeF, lengthV]; try omega)

end

mutual
/-- `BytesPodConverterCatalog.unpack_partial`: on `auto`, probes the
buffer end while the slot temporarily holds `U64` (restoring the cursor
and the slot), computes the type's max size under that 8-byte tag type,
and selects zero-copy when that size equals the full buffer length,
borsch otherwise; then (as for any concrete format) installs the tag
type for the chosen format, runs the converter's unpack step and
restores the previous slot value on every exit path.  Pass-through runs
the step with no tag negotiation. -/
def unpackPartialC (T : PodType) (fmt : Format) (data : List Nat)
    (pos : Nat) (slot : Slot) : UnpackRes :=
  match fmt with
  | .passThru => unpackHook T .passThru data pos slot
  | .borsch =>
      let r := unpackHook T .borsch data pos (some 1)
      ⟨r.res, r.pos, slot⟩
  | .zeroCopy =>
      let r := unpackHook T .zeroCopy data pos (some 8)
      ⟨r.res, r.pos, slot⟩
  | .auto =>
      match calcMaxSize T (some 8) with
      | .error e => ⟨.error e, pos, slot⟩
      | .ok size =>
          if size = data.length then
            let r := unpackHook T .zeroCopy data pos (some 8)
            ⟨r.res, r.pos, slot⟩
          else
            let r := unpackHook T .borsch data pos (some 1)
            ⟨r.res, r.pos, slot⟩
termination_by (depth T, 2, 0)
decreasing_by all_goals (simp [Prod.lex_def, depth, depthF, sizeF, lengthV]; try omega)

/-- The resolved converter's `unpack_partial` step for each registered
type.  `SelfBytesPodConverter.unpack_partial` invokes the type's
`_from_bytes_partial` hook as `(buffer, **kwargs)` with `format` always
present in `kwargs`.  The dataclass hook
(`dataclass_from_bytes_partial`) and `AutoTagType`'s hook accept this
and run; every generated container class declares its hook
`(cls, buffer)` without `**kwargs`, so for all six container kinds the
invocation raises `TypeError` before any byte is read — the cursor does
not move. -/
def unpackHook (T : PodType) (fmt : Format) (data : List Nat) (pos : Nat)
    (slot : Slot) : UnpackRes :=
  match T with
  | .uint w => unpackUintStep w data pos slot
  | .autoTag =>
      match slot with
      | none => ⟨.error (.noConverter "No converter was able to unpack object"),
          pos, none⟩
      | some w => unpackUintCatalog w fmt data pos (some w)
  | .fixedArray _ _ => ⟨.error hookTypeError, pos, slot⟩
  | .fixedBytes _ => ⟨.error hookTypeError, pos, slot⟩
  | .fixedStr _ _ => ⟨.error hookTypeError, pos, slot⟩
  | .varArray _ _ _ => ⟨.error hookTypeError, pos, slot⟩
  | .varBytes _ _ => ⟨.error hookTypeError, pos, slot⟩
  | .varStr _ _ => ⟨.error hookTypeError, pos, slot⟩
  | .record nm fs =>
      let r := unpackFields fs nm fmt data pos slot
      ⟨r.res.map .recd, r.pos, r.slot⟩
termination_by (depth T, 1, 0)
decreasing_by all_goals (simp [Prod.lex_def, depth, depthF, sizeF]; try omega)

/-- `dataclass_from_bytes_partial`: unpacks each field in declared
order through the catalog, wrapping any failure with the field name and
the class name; the record value is assembled only from the collected
field values after all of them succeed. -/
def unpackFields (fs : FieldList) (clsName : String) (fmt : Format)
    (data : List Nat) (pos : Nat) (slot : Slot) : UnpackListRes :=
  match fs with
  | .nil => ⟨.ok .nil, pos, slot⟩
  | .cons fn ft rest =>
      let r := unpackPartialC ft fmt data pos slot
      match r.res with
      | .error e =>
          ⟨.error (wrapUnpackErr e fn clsName (typeName ft)), r.pos, r.slot⟩
      | .ok v =>
          let r2 := unpackFields rest clsName fmt data r.pos r.slot
          ⟨r2.res.map (fun l => ValList.cons v l), r2.pos, r2.slot⟩
termination_by (depthF fs, 1, sizeF fs)
decreasing_by all_goals (simp [Prod.lex_def, depth, depthF, sizeF, lengthV]; try omega)

end

/-- `BYTES_CATALOG.pack(type_, obj, format=FORMAT_BORSCH)`: packs into a
fresh buffer and returns its contents (the partial writes of a failed
pack stay in the discarded buffer, so only the exception escapes). -/
def packBytes (T : PodType) (v : PodValue) (fmt : Format) :
    Except Err (List Nat) :=
  let r := packPartialC T fmt v none
  match r.res with
  | .ok _ => .ok r.out
  | .error e => .error e

/-- `BYTES_CATALOG.unpack(type_, raw, checked=False, format=FORMAT_AUTO)`:
unpacks from position 0 of a fresh buffer over `raw` and, when `checked`,
raises if bytes remain unconsumed. -/
def unpackBytes (T : PodType) (raw : List Nat) (checked : Bool)
    (fmt : Format) : Except Err PodValue :=
  let r := unpackPartialC T fmt raw 0 none
  match r.res with
  | .error e => .error e
  | .ok v =>
      if checked ∧ r.pos < raw.length then
        .error (.runtimeError "Unused bytes in provided raw data")
      else .ok v

theorem packPartialC_slot_managed (T : PodType) (fmt : Format) (v : PodValue)
    (slot : Slot) (h : fmt ≠ .passThru) :
    (packPartialC T fmt v slot).slot = slot := by
  cases fmt with
  | passThru => exact absurd rfl h
  | borsch => simp [packPartialC]
  | zeroCopy => simp [packPartialC]
  | auto => simp [packPartialC]

mutual
theorem packHook_slot : ∀ (T : PodType) (fmt : Format) (v : PodValue)
    (slot : Slot), (packHook T fmt v slot).slot = slot
  | .uint w, fmt, v, slot => by
      cases v <;> simp [packHook, packUintStep] <;> (try split) <;> rfl
  | .autoTag, fmt, v, slot => by
      cases slot with
      | none => simp [packHook]
      | some w =>
          cases fmt <;> cases v <;>
            simp [packHook, packUintCatalog, packUintStep] <;>
            (try split) <;> rfl
  | .fixedArray e n, fmt, v, slot => by simp [packHook]
  | .fixedBytes n, fmt, v, slot => by simp [packHook]
  | .fixedStr n ap, fmt, v, slot => by simp [packHook]
  | .varArray e lt ml, fmt, v, slot => by simp [packHook]
  | .varBytes lt ml, fmt, v, slot => by simp [packHook]
  | .varStr lt ml, fmt, v, slot => by simp [packHook]
  | .record nm fs, fmt, v, slot => by
      cases v with
      | recd vs => simpa [packHook] using packFields_slot fs nm fmt vs slot
      | uint m => cases fs <;> simp [packHook]
      | bytes bs => cases fs <;> simp [packHook]
      | str s => cases fs <;> simp [packHook]
      | arr xs => cases fs <;> simp [packHook]
termination_by T fmt v slot => (depth T, 1, 0)
decreasing_by all_goals (simp [Prod.lex_def, depth, depthF, sizeF, lengthV]; try omega)

theorem packFields_slot : ∀ (fs : FieldList) (clsName : String)
    (fmt : Format) (vs : ValList) (slot : Slot),
    (packFields fs clsName fmt vs slot).slot = slot
  | .nil, nm, fmt, vs, slot => by simp [packFields]
  | .cons fn ft rest, nm, fmt, vs, slot => by
      cases vs with
      | nil => simp [packFields]
      | cons x xs =>
          have h1 : (packPartialC ft fmt x slot).slot = slot :=
            packPartialC_slot ft fmt x slot
          rw [packFields]
          cases hr : (packPartialC ft fmt x slot).res with
          | error e1 => simp only [hr]; exact h1
          | ok u =>
              simp only [hr]
              rw [h1]
              exact packFields_slot rest nm fmt xs slot
termination_by fs clsName fmt vs slot => (depthF fs, 1, sizeF fs)
decreasing_by all_goals (simp [Prod.lex_def, depth, depthF, sizeF, lengthV]; try omega)

theorem packPartialC_slot : ∀ (T : PodType) (fmt : Format) (v : PodValue)
    (slot : Slot), (packPartialC T fmt v slot).slot = slot
  | T, .passThru, v, slot => by
      rw [packPartialC]
      exact packHook_slot T .passThru v slot
  | T, .borsch, v, slot => by simp [packPartialC]
  | T, .zeroCopy, v, slot => by simp [packPartialC]
  | T, .auto, v, slot => by simp [packPartialC]
termination_by T fmt v slot => (depth T, 2, 0)
decreasing_by all_goals (simp [Prod.lex_def, depth, depthF, sizeF, lengthV]; try omega)
end

theorem unpackPartialC_slot_managed (T : PodType) (fmt : Format)
    (data : List Nat) (pos : Nat) (slot : Slot) (h : fmt ≠ .passThru) :
    (unpackPartialC T fmt data pos slot).slot = slot := by
  cases fmt with
  | passThru => exact absurd rfl h
  | borsch => simp [unpackPartialC]
  | zeroCopy => simp [unpackPartialC]
  | auto =>
      rw [unpackPartialC]
      cases hc : calcMaxSize T (some 8) with
      | error e => simp [hc]
      | ok size => simp only [hc]; split <;> rfl

mutual
theorem unpackHook_slot : ∀ (T : PodType) (fmt : Format) (data : List Nat)
    (pos : Nat) (slot : Slot), (unpackHook T fmt data pos slot).slot = slot
  | .uint w, fmt, data, pos, slot => by
      simp [unpackHook, unpackUintStep]
      split <;> rfl
  | .autoTag, fmt, data, pos, slot => by
      cases slot with
      | none => simp [unpackHook]
      | some w =>
          cases fmt <;>
            simp [unpackHook, unpackUintCatalog, unpackUintStep] <;>
            (repeat' split) <;> rfl
  | .fixedArray e n, fmt, data, pos, slot => by simp [unpackHook]
  | .fixedBytes n, fmt, data, pos, slot => by simp [unpackHook]
  | .fixedStr n ap, fmt, data, pos, slot => by simp [unpackHook]
  | .varArray e lt ml, fmt, data, pos, slot => by simp [unpackHook]
  | .varBytes lt ml, fmt, data, pos, slot => by simp [unpackHook]
  | .varStr lt ml, fmt, data, pos, slot => by simp [unpackHook]
  | .record nm fs, fmt, data, pos, slot => by
      simpa [unpackHook] using unpackFields_slot fs nm fmt data pos slot
termination_by T fmt data pos slot => (depth T, 1, 0)
decreasing_by all_goals (simp [Prod.lex_def, depth, depthF, sizeF]; try omega)

theorem unpackFields_slot : ∀ (fs : FieldList) (clsName : String)
    (fmt : Format) (data : List Nat) (pos : Nat) (slot : Slot),
    (unpackFields fs clsName fmt data pos slot).slot = slot
  | .nil, nm, fmt, data, pos, slot => by simp [unpackFields]
  | .cons fn ft rest, nm, fmt, data, pos, slot => by
      have h1 : (unpackPartialC ft fmt data pos slot).slot = slot :=
        unpackPartialC_slot ft fmt data pos slot
      rw [unpackFields]
      cases hr : (unpackPartialC ft fmt data pos slot).res with
      | error e1 => simp only [hr]; exact h1
      | ok v =>
          simp only [hr]
          rw [h1]
          exact unpackFields_slot rest nm fmt data _ slot
termination_by fs clsName fmt data pos slot => (depthF fs, 1, sizeF fs)
decreasing_by all_goals (simp [Prod.lex_def, depth, depthF, sizeF]; try omega)

theorem unpackPartialC_slot : ∀ (T : PodType) (fmt : Format)
    (data : List Nat) (pos : Nat) (slot : Slot),
    (unpackPartialC T fmt data pos slot).slot = slot
  | T, .passThru, data, pos, slot => by
      rw [unpackPartialC]
      exact unpackHook_slot T .passThru data pos slot
  | T, .borsch, data, pos, slot => by simp [unpackPartialC]
  | T, .zeroCopy, data, pos, slot => by simp [unpackPartialC]
  | T, .auto, data, pos, slot => by
      exact unpackPartialC_slot_managed T .auto data pos slot (by simp)
termination_by T fmt data pos slot => (depth T, 2, 0)
decreasing_by all_goals (simp [Prod.lex_def, depth, depthF, sizeF]; try omega)
end

theorem drop_of_drop_eq (data pre tail : List Nat) (pos : Nat)
    (h : data.drop pos = pre ++ tail) :
    data.drop (pos + pre.length) = tail := by
  rw [← List.drop_drop, h, List.drop_left]

theorem take_of_drop_eq (data pre tail : List Nat) (pos : Nat)
    (h : data.drop pos = pre ++ tail) :
    (data.drop pos).take pre.length = pre := by
  rw [h, List.take_left]

theorem packPartialC_of_hook (T : PodType) (v : PodValue)
    (res : Except Err Unit) (out : List Nat)
    (hhook : ∀ fmt, fmt ≠ Format.auto → ∀ slot,
      packHook T fmt v slot = ⟨res, out, slot⟩) :
    ∀ fmt, fmt ≠ Format.auto → ∀ slot,
      packPartialC T fmt v slot = ⟨res, out, slot⟩ := by
  intro fmt hfmt slot
  cases fmt with
  | auto => exact absurd rfl hfmt
  | passThru => rw [packPartialC]; exact hhook _ (by simp) _
  | borsch => rw [packPartialC, hhook _ (by simp) _]
  | zeroCopy => rw [packPartialC, hhook _ (by simp) _]

theorem unpackPartialC_of_hook (T : PodType) (data : List Nat) (pos : Nat)
    (v : PodValue) (p2 : Nat) (hsize : ∃ n, calcMaxSize T (some 8) = .ok n)
    (hhook : ∀ fmt, fmt ≠ Format.auto → ∀ slot,
      unpackHook T fmt data pos slot = ⟨.ok v, p2, slot⟩) :
    ∀ (fmt : Format) (slot : Slot),
      unpackPartialC T fmt data pos slot = ⟨.ok v, p2, slot⟩ := by
  intro fmt slot
  cases fmt with
  | passThru => rw [unpackPartialC]; exact hhook _ (by simp) _
  | borsch => rw [unpackPartialC, hhook _ (by simp) _]
  | zeroCopy => rw [unpackPartialC, hhook _ (by simp) _]
  | auto =>
      obtain ⟨n, hn⟩ := hsize
      rw [unpackPartialC, hn]
      dsimp only
      by_cases hln : n = data.length
      · rw [if_pos hln, hhook .zeroCopy (by simp) (some 8)]
      · rw [if_neg hln, hhook .borsch (by simp) (some 1)]
theorem unpackPartialC_auto (T : PodType) (data : List Nat) (pos : Nat)
    (slot : Slot) :
    unpackPartialC T .auto data pos slot =
      match calcMaxSize T (some 8) with
      | .error e => ⟨.error e, pos, slot⟩
      | .ok size =>
          unpackPartialC T (if size = data.length then .zeroCopy else .borsch)
            data pos slot := by
  rw [unpackPartialC]
  cases hc : calcMaxSize T (some 8) with
  | error e => rfl
  | ok size =>
      dsimp only
      by_cases h : size = data.length
      · rw [if_pos h, if_pos h, unpackPartialC]
      · rw [if_neg h, if_neg h, unpackPartialC]

/-- Concatenation of field lists (used to state which field of a record
fails). -/
def appendF : FieldList → FieldList → FieldList
  | .nil, gs => gs
  | .cons nm t rest, gs => .cons nm t (appendF rest gs)

/-- Concatenation of value lists. -/
def appendV : ValList → ValList → ValList
  | .nil, ws => ws
  | .cons v rest, ws => .cons v (appendV rest ws)

theorem packFields_append_err : ∀ (pre : FieldList) (nm fn : String)
    (ft : PodType) (post : FieldList) (vsPre vsPost : ValList) (x : PodValue)
    (fmt : Format) (slot : Slot) (outPre outX : List Nat) (e : Err),
    sizeF pre = lengthV vsPre →
    packFields pre nm fmt vsPre slot = ⟨.ok (), outPre, slot⟩ →
    packPartialC ft fmt x slot = ⟨.error e, outX, slot⟩ →
    packFields (appendF pre (.cons fn ft post)) nm fmt
        (appendV vsPre (.cons x vsPost)) slot =
      ⟨.error (wrapPackErr e fn nm (typeName ft)), outPre ++ outX, slot⟩
  | .nil, nm, fn, ft, post, .nil, vsPost, x, fmt, slot, outPre, outX, e,
      hsz, hpre, hx => by
      have hout : outPre = [] := by
        rw [packFields] at hpre
        have h2 := congrArg PackRes.out hpre
        simpa using h2.symm
      subst hout
      rw [appendF, appendV, packFields, hx]
      dsimp only
      simp
  | .nil, nm, fn, ft, post, .cons y ys, vsPost, x, fmt, slot, outPre, outX, e,
      hsz, hpre, hx => by
      simp [sizeF, lengthV] at hsz
  | .cons f0 t0 prest, nm, fn, ft, post, .nil, vsPost, x, fmt, slot, outPre,
      outX, e, hsz, hpre, hx => by
      simp [sizeF, lengthV] at hsz
  | .cons f0 t0 prest, nm, fn, ft, post, .cons y ys, vsPost, x, fmt, slot,
      outPre, outX, e, hsz, hpre, hx => by
      have hsz' : sizeF prest = lengthV ys := by
        simpa [sizeF, lengthV] using hsz
      have hslot : (packPartialC t0 fmt y slot).slot = slot :=
        packPartialC_slot t0 fmt y slot
      rw [packFields] at hpre
      rw [appendF, appendV, packFields]
      cases hr : (packPartialC t0 fmt y slot).res with
      | error e0 =>
          rw [hr] at hpre
          simp at hpre
      | ok u =>
          rw [hr] at hpre
          simp only at hpre
          rw [hslot] at hpre
          dsimp only
          rw [hslot]
          have hres2 : (packFields prest nm fmt ys slot).res = .ok () := by
            have := congrArg PackRes.res hpre
            simpa using this
          have hslot2 : (packFields prest nm fmt ys slot).slot = slot :=
            packFields_slot prest nm fmt ys slot
          have hout2 : (packPartialC t0 fmt y slot).out ++
              (packFields prest nm fmt ys slot).out = outPre := by
            have := congrArg PackRes.out hpre
            simpa using this
          have heta : packFields prest nm fmt ys slot =
              ⟨(packFields prest nm fmt ys slot).res,
                (packFields prest nm fmt ys slot).out,
                (packFields prest nm fmt ys slot).slot⟩ := rfl
          have hpre' : packFields prest nm fmt ys slot =
              ⟨.ok (), (packFields prest nm fmt ys slot).out, slot⟩ := by
            rw [heta, hres2, hslot2]
          rw [packFields_append_err prest nm fn ft post ys vsPost x fmt slot
            (packFields prest nm fmt ys slot).out outX e hsz' hpre' hx]
          rw [← hout2, List.append_assoc]

theorem unpackFields_append_err : ∀ (pre : FieldList) (nm fn : String)
    (ft : PodType) (post : FieldList) (vs1 : ValList)
    (data : List Nat) (pos p1 p2 : Nat) (fmt : Format) (slot : Slot) (e : Err),
    unpackFields pre nm fmt data pos slot = ⟨.ok vs1, p1, slot⟩ →
    unpackPartialC ft fmt data p1 slot = ⟨.error e, p2, slot⟩ →
    unpackFields (appendF pre (.cons fn ft post)) nm fmt data pos slot =
      ⟨.error (wrapUnpackErr e fn nm (typeName ft)), p2, slot⟩
  | .nil, nm, fn, ft, post, vs1, data, pos, p1, p2, fmt, slot, e, hpre, hx => by
      have hpos : pos = p1 := by
        have := congrArg UnpackListRes.pos hpre
        simpa [unpackFields] using this
      subst hpos
      rw [appendF, unpackFields, hx]
      try simp
  | .cons f0 t0 prest, nm, fn, ft, post, vs1, data, pos, p1, p2, fmt, slot, e,
      hpre, hx => by
      have hslot : (unpackPartialC t0 fmt data pos slot).slot = slot :=
        unpackPartialC_slot t0 fmt data pos slot
      rw [unpackFields] at hpre
      rw [appendF, unpackFields]
      cases hr : (unpackPartialC t0 fmt data pos slot).res with
      | error e0 =>
          rw [hr] at hpre
          simp at hpre
      | ok v0 =>
          rw [hr] at hpre
          simp only at hpre
          rw [hslot] at hpre
          dsimp only
          rw [hslot]
          have hres2 : ∃ vs2, (unpackFields prest nm fmt data
              (unpackPartialC t0 fmt data pos slot).pos slot).res = .ok vs2 := by
            have := congrArg UnpackListRes.res hpre
            simp only at this
            cases hq : (unpackFields prest nm fmt data
                (unpackPartialC t0 fmt data pos slot).pos slot).res with
            | error e2 => rw [hq] at this; simp [Except.map] at this
            | ok vs2 => exact ⟨vs2, rfl⟩
          obtain ⟨vs2, hres2⟩ := hres2
          have hpos2 : (unpackFields prest nm fmt data
              (unpackPartialC t0 fmt data pos slot).pos slot).pos = p1 := by
            have := congrArg UnpackListRes.pos hpre
            simpa using this
          have hslot2 : (unpackFields prest nm fmt data
              (unpackPartialC t0 fmt data pos slot).pos slot).slot = slot :=
            unpackFields_slot prest nm fmt data _ slot
          have heta : unpackFields prest nm fmt data
              (unpackPartialC t0 fmt data pos slot).pos slot =
              ⟨(unpackFields prest nm fmt data
                  (unpackPartialC t0 fmt data pos slot).pos slot).res,
                (unpackFields prest nm fmt data
                  (unpackPartialC t0 fmt data pos slot).pos slot).pos,
                (unpackFields prest nm fmt data
                  (unpackPartialC t0 fmt data pos slot).pos slot).slot⟩ := rfl
          have hpre' : unpackFields prest nm fmt data
              (unpackPartialC t0 fmt data pos slot).pos slot =
              ⟨.ok vs2, p1, slot⟩ := by
            rw [heta, hres2, hpos2, hslot2]
          rw [unpackFields_append_err prest nm fn ft post vs2 data _ p1 p2 fmt
            slot e hpre' hx]
          simp [Except.map]

mutual
theorem containerFree_static : ∀ (T : PodType), containerFree T = true →
    catalogIsStatic T = .ok true
  | .uint w, h => by simp [catalogIsStatic]
  | .autoTag, h => by simp [containerFree] at h
  | .fixedArray e n, h => by simp [containerFree] at h
  | .fixedBytes n, h => by simp [containerFree] at h
  | .fixedStr n ap, h => by simp [containerFree] at h
  | .varArray e lt ml, h => by simp [containerFree] at h
  | .varBytes lt ml, h => by simp [containerFree] at h
  | .varStr lt ml, h => by simp [containerFree] at h
  | .record nm fs, h => by
      rw [catalogIsStatic]
      exact containerFreeF_static fs (by simpa [containerFree] using h)
termination_by T h => (depth T, 0, 0)
decreasing_by all_goals (simp [Prod.lex_def, depth, depthF, sizeF]; try omega)

theorem containerFreeF_static : ∀ (fs : FieldList), containerFreeF fs = true →
    isStaticFields fs = .ok true
  | .nil, h => by simp [isStaticFields]
  | .cons fn ft rest, h => by
      have h1 : containerFree ft = true := by
        have h' := h
        simp [containerFreeF] at h'
        exact h'.1
      have h2 : containerFreeF rest = true := by
        have h' := h
        simp [containerFreeF] at h'
        exact h'.2
      rw [isStaticFields, containerFree_static ft h1]
      simpa [Bind.bind, Except.bind] using containerFreeF_static rest h2
termination_by fs h => (depthF fs, 0, sizeF fs)
decreasing_by all_goals (simp [Prod.lex_def, depth, depthF, sizeF]; try omega)
end

mutual
theorem coreT : ∀ (T : PodType) (v : PodValue),
    containerFree T = true → legalValue T v = true →
    ∃ out : List Nat,
      (∀ (fmt : Format), fmt ≠ Format.auto → ∀ (slot : Slot),
        packHook T fmt v slot = ⟨.ok (), out, slot⟩) ∧
      (∀ (s : Slot), calcMaxSize T s = .ok out.length) ∧
      (∀ (data rest : List Nat) (pos : Nat) (fmt : Format) (slot : Slot),
        data.drop pos = out ++ rest →
        unpackHook T fmt data pos slot = ⟨.ok v, pos + out.length, slot⟩)
  | .uint w, v, hcf, hleg => by
      cases v with
      | uint n =>
          have hlt : n < 256 ^ w := by simpa [legalValue] using hleg
          refine ⟨natToLE w n, ?_, ?_, ?_⟩
          · intro fmt hfmt slot
            simp [packHook, packUintStep, hlt]
          · intro s
            simp [calcMaxSize, natToLE_length]
          · intro data rest pos fmt slot hdrop
            have htake := take_of_drop_eq data (natToLE w n) rest pos hdrop
            rw [natToLE_length] at htake
            simp [unpackHook, unpackUintStep, htake, natToLE_length,
              leToNat_natToLE w n hlt]
      | bytes bs => simp [legalValue] at hleg
      | str s => simp [legalValue] at hleg
      | arr xs => simp [legalValue] at hleg
      | recd vs => simp [legalValue] at hleg
  | .autoTag, v, hcf, hleg => by simp [containerFree] at hcf
  | .fixedArray e n, v, hcf, hleg => by simp [containerFree] at hcf
  | .fixedBytes n, v, hcf, hleg => by simp [containerFree] at hcf
  | .fixedStr n ap, v, hcf, hleg => by simp [containerFree] at hcf
  | .varArray e lt ml, v, hcf, hleg => by simp [containerFree] at hcf
  | .varBytes lt ml, v, hcf, hleg => by simp [containerFree] at hcf
  | .varStr lt ml, v, hcf, hleg => by simp [containerFree] at hcf
  | .record nm fs, v, hcf, hleg => by
      cases v with
      | recd vs =>
          have hcf' : containerFreeF fs = true := by
            simpa [containerFree] using hcf
          have hleg' : legalFields fs vs = true := by
            simpa [legalValue] using hleg
          obtain ⟨out, hpk, hsz, hup⟩ := coreFields fs vs nm hcf' hleg'
          refine ⟨out, ?_, ?_, ?_⟩
          · intro fmt hfmt slot
            rw [packHook]
            exact hpk fmt hfmt slot
          · intro s
            rw [calcMaxSize]
            exact hsz s
          · intro data rest pos fmt slot hdrop
            rw [unpackHook, hup data rest pos fmt slot hdrop]
            simp [Except.map]
      | uint n => simp [legalValue] at hleg
      | bytes bs => simp [legalValue] at hleg
      | str s => simp [legalValue] at hleg
      | arr xs => simp [legalValue] at hleg
termination_by T v hcf hleg => (depth T, 1, 0)
decreasing_by all_goals (simp [Prod.lex_def, depth, depthF, sizeF]; try omega)

theorem coreFields : ∀ (fs : FieldList) (vs : ValList) (nm : String),
    containerFreeF fs = true → legalFields fs vs = true →
    ∃ out : List Nat,
      (∀ (fmt : Format), fmt ≠ Format.auto → ∀ (slot : Slot),
        packFields fs nm fmt vs slot = ⟨.ok (), out, slot⟩) ∧
      (∀ (s : Slot), calcMaxSizeFields fs s = .ok out.length) ∧
      (∀ (data rest : List Nat) (pos : Nat) (fmt : Format) (slot : Slot),
        data.drop pos = out ++ rest →
        unpackFields fs nm fmt data pos slot = ⟨.ok vs, pos + out.length, slot⟩)
  | .nil, vs, nm, hcf, hleg => by
      cases vs with
      | nil =>
          refine ⟨[], ?_, ?_, ?_⟩
          · intro fmt hfmt slot
            simp [packFields]
          · intro s
            simp [calcMaxSizeFields]
          · intro data rest pos fmt slot hdrop
            simp [unpackFields]
      | cons x xs => simp [legalFields] at hleg
  | .cons fn ft frest, vs, nm, hcf, hleg => by
      cases vs with
      | nil => simp [legalFields] at hleg
      | cons x xs =>
          have hcf1 : containerFree ft = true := by
            have h' := hcf
            simp [containerFreeF] at h'
            exact h'.1
          have hcf2 : containerFreeF frest = true := by
            have h' := hcf
            simp [containerFreeF] at h'
            exact h'.2
          have hleg1 : legalValue ft x = true := by
            have h' := hleg
            simp [legalFields] at h'
            exact h'.1
          have hleg2 : legalFields frest xs = true := by
            have h' := hleg
            simp [legalFields] at h'
            exact h'.2
          obtain ⟨o1, hpk1, hsz1, hup1⟩ := coreT ft x hcf1 hleg1
          obtain ⟨o2, hpk2, hsz2, hup2⟩ := coreFields frest xs nm hcf2 hleg2
          refine ⟨o1 ++ o2, ?_, ?_, ?_⟩
          · intro fmt hfmt slot
            have hP : packPartialC ft fmt x slot = ⟨.ok (), o1, slot⟩ :=
              packPartialC_of_hook ft x (.ok ()) o1 hpk1 fmt hfmt slot
            rw [packFields, hP]
            dsimp only
            rw [hpk2 fmt hfmt slot]
          · intro s
            simp [calcMaxSizeFields, hsz1 s, hsz2 s, Bind.bind, Except.bind,
              pure, Except.pure, List.length_append]
          · intro data rest pos fmt slot hdrop
            rw [List.append_assoc] at hdrop
            have hU1 : unpackPartialC ft fmt data pos slot =
                ⟨.ok x, pos + o1.length, slot⟩ :=
              unpackPartialC_of_hook ft data pos x (pos + o1.length)
                ⟨o1.length, hsz1 (some 8)⟩
                (fun fmt2 h2 slot2 => hup1 data (o2 ++ rest) pos fmt2 slot2 hdrop)
                fmt slot
            have hdrop2 : data.drop (pos + o1.length) = o2 ++ rest :=
              drop_of_drop_eq data o1 (o2 ++ rest) pos hdrop
            have hU2 := hup2 data rest (pos + o1.length) fmt slot hdrop2
            rw [unpackFields, hU1]
            dsimp only
            rw [hU2]
            simp [Except.map, List.length_append]
            omega
termination_by fs vs nm hcf hleg => (depthF fs, 1, sizeF fs)
decreasing_by all_goals (simp [Prod.lex_def, depth, depthF, sizeF]; try omega)
end

/-- C6: Tag Context stack discipline: every negotiated `pack_partial` /
`unpack_partial` call saves the tag-type slot on entry, installs the tag
type of its format, and restores the saved value on every exit path
(normal return or raised exception, both captured by the result value),
so the slot after any catalog pack or unpack call equals the slot before
it, for every type, format, value/buffer and prior slot value. -/
theorem C6_tagContextRestored :
    (∀ (T : PodType) (fmt : Format) (v : PodValue) (slot : Slot),
      (packPartialC T fmt v slot).slot = slot) ∧
    (∀ (T : PodType) (fmt : Format) (data : List Nat) (pos : Nat)
      (slot : Slot), (unpackPartialC T fmt data pos slot).slot = slot) :=
  ⟨packPartialC_slot, unpackPartialC_slot⟩

/-- C3: the variable-length container generators default `max_length` to
`2 ** BYTES_CATALOG.calc_max_size(length_type)`, i.e. two to the BYTE
width of the length type: for the default `U32` length type this is
`2 ^ 4 = 16`, not the `2 ^ 32` the spec states (the claimed value two to
the BIT width). -/
theorem C3_defaultMaxLength :
    defaultMaxLength U32 = .ok 16 ∧ calcMaxSize U32 none = .ok 4 ∧
      (16 : Nat) ≠ 2 ^ 32 := by
  refine ⟨?_, ?_, by decide⟩
  · simp [defaultMaxLength, calcMaxSize, U32, Except.map]
  · simp [calcMaxSize, U32]

/-- C4 (counterexample): querying `is_static` through the catalog for a
variable-array type does not succeed with `false`: the generated class
defines its hook as `is_static` while the catalog looks up `_is_static`,
so the query raises `AttributeError` instead. -/
theorem C4_counterexample :
    catalogIsStatic (.varArray (.uint 1) U32 16) =
      .error (.attributeError "_is_static") ∧
    ∀ b : Bool, catalogIsStatic (.varArray (.uint 1) U32 16) ≠ .ok b := by
  constructor
  · simp [catalogIsStatic, IS_STATIC]
  · intro b
    simp [catalogIsStatic, IS_STATIC]

/-- C4 (amended): the variable bytes and variable string generators
register their static-check hook under the catalog's expected name
`_is_static` and the catalog query succeeds with `false`; the variable
array generator names its hook `is_static` instead, so the catalog's
`getattr(type_, "_is_static")` fails with `AttributeError` — the three
generators do not register identically. -/
theorem C4_varContainerIsStatic (e lt : PodType) (ml : Nat) :
    (staticHookName (.varBytes lt ml) = IS_STATIC ∧
      catalogIsStatic (.varBytes lt ml) = .ok false) ∧
    (staticHookName (.varStr lt ml) = IS_STATIC ∧
      catalogIsStatic (.varStr lt ml) = .ok false) ∧
    (staticHookName (.varArray e lt ml) ≠ IS_STATIC ∧
      catalogIsStatic (.varArray e lt ml) =
        .error (.attributeError IS_STATIC)) := by
  refine ⟨⟨rfl, by simp [catalogIsStatic]⟩, ⟨rfl, by simp [catalogIsStatic]⟩,
    ⟨?_, by simp [catalogIsStatic]⟩⟩
  simp [staticHookName, IS_STATIC]

/-- C8: path-error enrichment of the composite record codec: when
packing or unpacking a field fails, the failure is re-raised with the
failing field's name and the enclosing record type's name appended to
the accumulating `PodPathError` path (an already-enriched nested
`PodPathError` keeps its path and grows it, so nested failures
accumulate the whole chain); the bytes written (resp. the cursor) by the
preceding fields and the failing field are preserved, and an unpack that
returns a record value does so only because every field succeeded — the
record is assembled from the collected field values afterwards. -/
theorem C8_pathErrorEnrichment (nm fn : String) (ft : PodType)
    (pre post : FieldList) (vsPre vsPost : ValList) (x : PodValue)
    (fmt : Format) (slot : Slot) (outPre outX : List Nat)
    (data : List Nat) (pos p1 p2 : Nat) (vs1 : ValList) (e : Err) :
    (sizeF pre = lengthV vsPre →
      packFields pre nm fmt vsPre slot = ⟨.ok (), outPre, slot⟩ →
      packPartialC ft fmt x slot = ⟨.error e, outX, slot⟩ →
      packFields (appendF pre (.cons fn ft post)) nm fmt
          (appendV vsPre (.cons x vsPost)) slot =
        ⟨.error (wrapPackErr e fn nm (typeName ft)), outPre ++ outX, slot⟩) ∧
    (unpackFields pre nm fmt data pos slot = ⟨.ok vs1, p1, slot⟩ →
      unpackPartialC ft fmt data p1 slot = ⟨.error e, p2, slot⟩ →
      unpackFields (appendF pre (.cons fn ft post)) nm fmt data pos slot =
        ⟨.error (wrapUnpackErr e fn nm (typeName ft)), p2, slot⟩) ∧
    (∀ (fs : FieldList) (w : PodValue) (pw : Nat) (sw : Slot),
      unpackHook (.record nm fs) fmt data pos slot = ⟨.ok w, pw, sw⟩ →
      ∃ vs, w = .recd vs ∧
        unpackFields fs nm fmt data pos slot = ⟨.ok vs, pw, sw⟩) := by
  refine ⟨?_, ?_, ?_⟩
  · intro hsz hpre hx
    exact packFields_append_err pre nm fn ft post vsPre vsPost x fmt slot
      outPre outX e hsz hpre hx
  · intro hpre hx
    exact unpackFields_append_err pre nm fn ft post vs1 data pos p1 p2 fmt
      slot e hpre hx
  · intro fs w pw sw hw
    rw [unpackHook] at hw
    cases hq : (unpackFields fs nm fmt data pos slot).res with
    | error e2 =>
        rw [hq] at hw
        simp [Except.map] at hw
    | ok vs =>
        rw [hq] at hw
        simp only [Except.map] at hw
        refine ⟨vs, ?_, ?_⟩
        · have := congrArg UnpackRes.res hw
          simpa using this.symm
        · have heta : unpackFields fs nm fmt data pos slot =
              ⟨(unpackFields fs nm fmt data pos slot).res,
                (unpackFields fs nm fmt data pos slot).pos,
                (unpackFields fs nm fmt data pos slot).slot⟩ := rfl
          rw [heta, hq]
          have hp := congrArg UnpackRes.pos hw
          have hs := congrArg UnpackRes.slot hw
          simp only at hp hs
          rw [hp, hs]

/-- Witness for C8: packing record `R` with a single `U8` field `x`
bound to a bytes value fails, and the failure is wrapped into a
`PodPathError` whose path is `[x, R]`. -/
theorem C8_witness :
    packFields (.cons "x" (.uint 1) .nil) "R" .borsch
        (.cons (.bytes []) .nil) none =
      ⟨.error (.podPathError "Failed to serialize dataclass" ["x", "R"] "U8"),
        [], none⟩ := by
  have h := (C8_pathErrorEnrichment "R" "x" (.uint 1) .nil .nil .nil .nil
    (.bytes []) .borsch none [] [] [] 0 0 0 .nil
    (.typeError "required argument is not an integer")).1 rfl
    (by simp [packFields]) (by
      simp [packPartialC, packHook, packUintStep])
  simpa [appendF, appendV, wrapPackErr, typeName] using h

/-- C1 (counterexample): the round-trip claim fails for every generated
container Type, because `pack` itself raises: the catalog invokes the
hooks with the `format` keyword, which the container hooks (declared
without `**kwargs`) reject.  Packing an in-bounds `FixedLenBytes[4]`
value or an in-bounds `Vec[U8]` value raises `TypeError` in both
round-trip formats, and unpacking a well-formed 4-byte buffer as
`FixedLenBytes[4]` raises the same. -/
theorem C1_counterexample :
    legalValue (.fixedBytes 4) (.bytes [7]) = true ∧
    packBytes (.fixedBytes 4) (.bytes [7]) .borsch = .error hookTypeError ∧
    packBytes (.fixedBytes 4) (.bytes [7]) .zeroCopy = .error hookTypeError ∧
    legalValue (.varArray (.uint 1) U32 16) (.arr (.cons (.uint 5) .nil)) =
      true ∧
    packBytes (.varArray (.uint 1) U32 16) (.arr (.cons (.uint 5) .nil))
      .borsch = .error hookTypeError ∧
    unpackBytes (.fixedBytes 4) [1, 2, 3, 4] false .borsch =
      .error hookTypeError := by
  refine ⟨by decide, ?_, ?_, by decide, ?_, ?_⟩
  · simp [packBytes, packPartialC, packHook]
  · simp [packBytes, packPartialC, packHook]
  · simp [packBytes, packPartialC, packHook]
  · simp [unpackBytes, unpackPartialC, unpackHook]

/-- C1 (amended): for every registered data Type built only from atomic
unsigned integers and `@pod` dataclass records of such Types — the Types
whose hooks the catalog can actually invoke — and every value within the
Type's declared bounds, packing succeeds in both the canonical and the
zero-copy format with the same bytes, and unpacking those bytes (in any
format, including the `auto` default, checked or not) returns the
original value: `unpack(type, pack(type, v, format)) == v` for
`format ∈ {Canonical, ZeroCopy}`. -/
theorem C1_roundtrip (T : PodType) (v : PodValue)
    (hcf : containerFree T = true) (hleg : legalValue T v = true) :
    ∃ raw : List Nat,
      packBytes T v .borsch = .ok raw ∧
      packBytes T v .zeroCopy = .ok raw ∧
      ∀ (checked : Bool) (ufmt : Format),
        unpackBytes T raw checked ufmt = .ok v := by
  obtain ⟨out, hpk, hsz, hup⟩ := coreT T v hcf hleg
  have hunp : ∀ (fmt : Format) (slot : Slot),
      unpackPartialC T fmt out 0 slot = ⟨.ok v, 0 + out.length, slot⟩ :=
    unpackPartialC_of_hook T out 0 v (0 + out.length)
      ⟨out.length, hsz (some 8)⟩
      (fun fmt2 h2 slot2 => hup out [] 0 fmt2 slot2 (by simp))
  refine ⟨out, ?_, ?_, ?_⟩
  · have h := packPartialC_of_hook T v (.ok ()) out hpk .borsch (by simp) none
    simp [packBytes, h]
  · have h := packPartialC_of_hook T v (.ok ()) out hpk .zeroCopy (by simp) none
    simp [packBytes, h]
  · intro checked ufmt
    have h := hunp ufmt none
    simp [unpackBytes, h]

/-- Witness for C1 at the record Type `Pair(a: U8, b: U32)` and the
in-bounds value `Pair(5, 300)`. -/
theorem C1_witness :
    containerFree
      (.record "Pair" (.cons "a" (.uint 1) (.cons "b" (.uint 4) .nil))) =
      true ∧
    legalValue
      (.record "Pair" (.cons "a" (.uint 1) (.cons "b" (.uint 4) .nil)))
      (.recd (.cons (.uint 5) (.cons (.uint 300) .nil))) = true ∧
    ∃ raw : List Nat,
      packBytes
        (.record "Pair" (.cons "a" (.uint 1) (.cons "b" (.uint 4) .nil)))
        (.recd (.cons (.uint 5) (.cons (.uint 300) .nil))) .borsch =
        .ok raw ∧
      packBytes
        (.record "Pair" (.cons "a" (.uint 1) (.cons "b" (.uint 4) .nil)))
        (.recd (.cons (.uint 5) (.cons (.uint 300) .nil))) .zeroCopy =
        .ok raw ∧
      ∀ (checked : Bool) (ufmt : Format),
        unpackBytes
          (.record "Pair" (.cons "a" (.uint 1) (.cons "b" (.uint 4) .nil)))
          raw checked ufmt =
          .ok (.recd (.cons (.uint 5) (.cons (.uint 300) .nil))) :=
  ⟨by decide, by decide,
    C1_roundtrip
      (.record "Pair" (.cons "a" (.uint 1) (.cons "b" (.uint 4) .nil)))
      (.recd (.cons (.uint 5) (.cons (.uint 300) .nil)))
      (by decide) (by decide)⟩

/-- C2 (counterexample): static-size exactness fails in the strong sense
that a static Type need not be packable at all: `FixedLenBytes[4]`
reports static with `calc_max_size = 4`, yet packing the in-bounds value
`b"\x01\x02"` raises `TypeError` at the hook invocation, so no encoded
length exists to compare with the reported size. -/
theorem C2_counterexample :
    catalogIsStatic (.fixedBytes 4) = .ok true ∧
    legalValue (.fixedBytes 4) (.bytes [1, 2]) = true ∧
    calcMaxSize (.fixedBytes 4) none = .ok 4 ∧
    packBytes (.fixedBytes 4) (.bytes [1, 2]) .borsch =
      .error hookTypeError := by
  refine ⟨rfl, by decide, rfl, ?_⟩
  simp [packBytes, packPartialC, packHook]

/-- C2 (amended): for the packable static Types — those built only from
atomic unsigned integers and `@pod` dataclass records of such — the
catalog answers `is_static` with `true`, packing any in-bounds value
succeeds, and the encoded length equals `calc_max_size` exactly: for
those Types the reported max size is the exact encoded length, not
merely an upper bound. -/
theorem C2_staticSizeExact (T : PodType) (v : PodValue)
    (hcf : containerFree T = true) (hleg : legalValue T v = true) :
    catalogIsStatic T = .ok true ∧
    ∃ raw : List Nat,
      packBytes T v .borsch = .ok raw ∧
      calcMaxSize T none = .ok raw.length := by
  obtain ⟨out, hpk, hsz, _⟩ := coreT T v hcf hleg
  refine ⟨containerFree_static T hcf, out, ?_, hsz none⟩
  have h := packPartialC_of_hook T v (.ok ()) out hpk .borsch (by simp) none
  simp [packBytes, h]

/-- Witness for C2 at the record Type `Point(x: U8, y: U8)` and the
in-bounds value `Point(1, 2)`. -/
theorem C2_witness :
    containerFree
      (.record "Point" (.cons "x" (.uint 1) (.cons "y" (.uint 1) .nil))) =
      true ∧
    legalValue
      (.record "Point" (.cons "x" (.uint 1) (.cons "y" (.uint 1) .nil)))
      (.recd (.cons (.uint 1) (.cons (.uint 2) .nil))) = true ∧
    (catalogIsStatic
        (.record "Point" (.cons "x" (.uint 1) (.cons "y" (.uint 1) .nil))) =
        .ok true ∧
      ∃ raw : List Nat,
        packBytes
          (.record "Point" (.cons "x" (.uint 1) (.cons "y" (.uint 1) .nil)))
          (.recd (.cons (.uint 1) (.cons (.uint 2) .nil))) .borsch =
          .ok raw ∧
        calcMaxSize
          (.record "Point" (.cons "x" (.uint 1) (.cons "y" (.uint 1) .nil)))
          none = .ok raw.length) :=
  ⟨by decide, by decide,
    C2_staticSizeExact
      (.record "Point" (.cons "x" (.uint 1) (.cons "y" (.uint 1) .nil)))
      (.recd (.cons (.uint 1) (.cons (.uint 2) .nil)))
      (by decide) (by decide)⟩

/-- C5 (counterexample): the round-trip consequence of the auto-detect
claim fails for a statically-sized record Type with a container field:
`R(b: FixedLenBytes[2])` is static and `R(b"\x01\x02")` is in bounds,
but `pack` already raises — a `PodPathError` wrapping the
hook-invocation `TypeError` — so no auto-format unpack can return the
value. -/
theorem C5_counterexample :
    catalogIsStatic (.record "R" (.cons "b" (.fixedBytes 2) .nil)) =
      .ok true ∧
    legalValue (.record "R" (.cons "b" (.fixedBytes 2) .nil))
      (.recd (.cons (.bytes [1, 2]) .nil)) = true ∧
    packBytes (.record "R" (.cons "b" (.fixedBytes 2) .nil))
      (.recd (.cons (.bytes [1, 2]) .nil)) .borsch =
      .error (.podPathError "Failed to serialize dataclass" ["b", "R"]
        "FixedLenBytes[2]") := by
  refine ⟨rfl, by decide, ?_⟩
  simp [packBytes, packPartialC, packHook, packFields, wrapPackErr, typeName,
    hookTypeError]
  rfl

/-- C5 (amended): when the format is `Auto` the decoder probes the
buffer end and restores the cursor, computes the type's max size while
the tag slot holds the 8-byte tag type, and selects zero-copy when that
size equals the total buffer length (the remaining length at the
outermost decode call), canonical otherwise — this detection mechanism
holds for every Type.  Consequently, for a statically-sized record Type
built only from atomic unsigned integers and records of such (the
packable statics) and any in-bounds value, packing in either format
succeeds with the same bytes and the auto-format unpack of those bytes
returns the value at the outermost decode call. -/
theorem C5_autoDetect (T : PodType) (v : PodValue)
    (hcf : containerFree T = true) (hleg : legalValue T v = true) :
    (∀ (S : PodType) (data : List Nat) (pos : Nat) (slot : Slot),
      unpackPartialC S .auto data pos slot =
        match calcMaxSize S (some 8) with
        | .error e => ⟨.error e, pos, slot⟩
        | .ok size =>
            unpackPartialC S
              (if size = data.length then .zeroCopy else .borsch)
              data pos slot) ∧
    catalogIsStatic T = .ok true ∧
    ∃ raw : List Nat,
      packBytes T v .zeroCopy = .ok raw ∧
      packBytes T v .borsch = .ok raw ∧
      unpackBytes T raw false .auto = .ok v := by
  obtain ⟨out, hpk, hsz, hup⟩ := coreT T v hcf hleg
  have hunp : ∀ (fmt : Format) (slot : Slot),
      unpackPartialC T fmt out 0 slot = ⟨.ok v, 0 + out.length, slot⟩ :=
    unpackPartialC_of_hook T out 0 v (0 + out.length)
      ⟨out.length, hsz (some 8)⟩
      (fun fmt2 h2 slot2 => hup out [] 0 fmt2 slot2 (by simp))
  refine ⟨fun S data pos slot => unpackPartialC_auto S data pos slot,
    containerFree_static T hcf, out, ?_, ?_, ?_⟩
  · have h := packPartialC_of_hook T v (.ok ()) out hpk .zeroCopy (by simp) none
    simp [packBytes, h]
  · have h := packPartialC_of_hook T v (.ok ()) out hpk .borsch (by simp) none
    simp [packBytes, h]
  · have h := hunp .auto none
    simp [unpackBytes, h]

/-- Witness for C5 at the record Type `Header(m: U32)` and the in-bounds
value `Header(7)`. -/
theorem C5_witness :
    containerFree (.record "Header" (.cons "m" (.uint 4) .nil)) = true ∧
    legalValue (.record "Header" (.cons "m" (.uint 4) .nil))
      (.recd (.cons (.uint 7) .nil)) = true ∧
    ((∀ (S : PodType) (data : List Nat) (pos : Nat) (slot : Slot),
        unpackPartialC S .auto data pos slot =
          match calcMaxSize S (some 8) with
          | .error e => ⟨.error e, pos, slot⟩
          | .ok size =>
              unpackPartialC S
                (if size = data.length then .zeroCopy else .borsch)
                data pos slot) ∧
      catalogIsStatic (.record "Header" (.cons "m" (.uint 4) .nil)) =
        .ok true ∧
      ∃ raw : List Nat,
        packBytes (.record "Header" (.cons "m" (.uint 4) .nil))
          (.recd (.cons (.uint 7) .nil)) .zeroCopy = .ok raw ∧
        packBytes (.record "Header" (.cons "m" (.uint 4) .nil))
          (.recd (.cons (.uint 7) .nil)) .borsch = .ok raw ∧
        unpackBytes (.record "Header" (.cons "m" (.uint 4) .nil)) raw false
          .auto = .ok (.recd (.cons (.uint 7) .nil))) :=
  ⟨by decide, by decide,
    C5_autoDetect (.record "Header" (.cons "m" (.uint 4) .nil))
      (.recd (.cons (.uint 7) .nil)) (by decide) (by decide)⟩

/-- C7 (code bug): the bounds checks of the variable-length containers
are unreachable: the catalog invokes `_to_bytes_partial` /
`_from_bytes_partial` with the `format` keyword, which the generated
hooks (declared without `**kwargs`) reject.  Packing an over-length
`Bytes[max_length=2]` value and packing an in-bounds one raise the same
`TypeError` with nothing written, and unpacking a length prefix that
exceeds `max_length` raises that `TypeError` with the cursor unmoved —
never the claimed `RuntimeError("actual_length > max_length")`. -/
theorem C7_boundsUnreachable :
    packPartialC (.varBytes U32 2) .borsch (.bytes [1, 2, 3]) none =
      ⟨.error hookTypeError, [], none⟩ ∧
    packPartialC (.varBytes U32 2) .borsch (.bytes [1]) none =
      ⟨.error hookTypeError, [], none⟩ ∧
    unpackPartialC (.varBytes U32 2) .borsch [3, 0, 0, 0] 0 none =
      ⟨.error hookTypeError, 0, none⟩ ∧
    hookTypeError ≠ .runtimeError "actual_length > max_length" := by
  refine ⟨?_, ?_, ?_, by simp [hookTypeError]⟩
  · simp [packPartialC, packHook]
  · simp [packPartialC, packHook]
  · simp [unpackPartialC, unpackHook]

/-- C9 (code bug): the fixed-string codec the claim describes never
executes: `_StrPod`'s hooks are declared without `**kwargs`, so
`FixedLenStr[8]` raises `TypeError` at the hook invocation when packing
the in-bounds `"hi"`, when unpacking the 8-byte buffer `"hi"` plus six
zero bytes, and when packing a 9-character string (for which the claim
predicts a bounds `ValueError`). -/
theorem C9_strPodUnreachable :
    legalValue (.fixedStr 8 true) (.str [104, 105]) = true ∧
    packBytes (.fixedStr 8 true) (.str [104, 105]) .borsch =
      .error hookTypeError ∧
    unpackBytes (.fixedStr 8 true) [104, 105, 0, 0, 0, 0, 0, 0] false
      .borsch = .error hookTypeError ∧
    packBytes (.fixedStr 8 true)
      (.str [97, 98, 99, 100, 101, 102, 103, 104, 105]) .borsch =
      .error hookTypeError := by
  refine ⟨by decide, ?_, ?_, ?_⟩
  · simp [packBytes, packPartialC, packHook]
  · simp [unpackBytes, unpackPartialC, unpackHook]
  · simp [packBytes, packPartialC, packHook]

/-- C10 (counterexample): packing an over-length `FixedLenBytes[2]`
value does raise an error — the hook-invocation `TypeError` — and writes
nothing, contradicting the claim that all bytes of an over-length input
are written with no error raised. -/
theorem C10_counterexample :
    packBytes (.fixedBytes 2) (.bytes [1, 2, 3]) .borsch =
      .error hookTypeError ∧
    packPartialC (.fixedBytes 2) .borsch (.bytes [1, 2, 3]) none =
      ⟨.error hookTypeError, [], none⟩ := by
  constructor
  · simp [packBytes, packPartialC, packHook]
  · simp [packPartialC, packHook]

/-- C10 (amended): for `FixedLenBytes[N]` the catalog pack raises
`TypeError` at the hook invocation for every value and every concrete
format, writing nothing, while `_calc_max_size` reports `N`.  The
unreachable hook body's rule, `obj.ljust(N, b"\x00")`, would write an
over-length input unchanged and in full (exceeding the declared static
size `N`) and zero-pad an input of at most `N` bytes to exactly `N`
bytes. -/
theorem C10_fixedBytesOverflow (n : Nat) (bs : List Nat) :
    (∀ (v : PodValue) (fmt : Format), fmt ≠ Format.auto → ∀ (slot : Slot),
      packPartialC (.fixedBytes n) fmt v slot =
        ⟨.error hookTypeError, [], slot⟩) ∧
    (∀ (s : Slot), calcMaxSize (.fixedBytes n) s = .ok n) ∧
    (n < bs.length → ljust bs n = bs) ∧
    (bs.length ≤ n →
      ljust bs n = bs ++ List.replicate (n - bs.length) 0 ∧
      (ljust bs n).length = n) := by
  refine ⟨?_, ?_, ?_, ?_⟩
  · intro v fmt hfmt slot
    exact packPartialC_of_hook (.fixedBytes n) v (.error hookTypeError) []
      (fun fmt2 h2 slot2 => by simp [packHook]) fmt hfmt slot
  · intro s
    simp [calcMaxSize]
  · intro h
    simp [ljust, Nat.sub_eq_zero_of_le (Nat.le_of_lt h)]
  · intro h
    refine ⟨rfl, ?_⟩
    simp [ljust]
    omega

/-- Witness for C10 at `N = 2` and the over-length 3-byte input
`b"\x01\x02\x03"`. -/
theorem C10_witness :
    packPartialC (.fixedBytes 2) .zeroCopy (.bytes [1, 2, 3]) none =
      ⟨.error hookTypeError, [], none⟩ ∧
    calcMaxSize (.fixedBytes 2) none = .ok 2 ∧
    ljust [1, 2, 3] 2 = [1, 2, 3] :=
  ⟨(C10_fixedBytesOverflow 2 [1, 2, 3]).1 (.bytes [1, 2, 3]) .zeroCopy
      (by decide) none,
    (C10_fixedBytesOverflow 2 [1, 2, 3]).2.1 none,
    (C10_fixedBytesOverflow 2 [1, 2, 3]).2.2.1 (by norm_num)⟩

end Podite
